import Mathlib

/-!
Verification development for the PicasaSync reconciliation engine
(`PicasaSync/PicasaSync.py`).  The Python program is shallowly embedded:
each relevant Python function becomes an executable Lean definition over
explicit data, side effects become explicit lists of emitted actions or
effects, and machine integers become `Int`/`Nat` (the Python 2 floor
division `/` on longs is modelled by `Int.fdiv`).
-/

namespace PicasaSync

/-- Picasa hard cap on photos per album (source line 21: `MAX_PHOTOS_PER_ALBUM = 1000`). -/
def MAX_PHOTOS_PER_ALBUM : Nat := 1000

/-- The argparse option bag built in `run` (source lines 272-286).  `path`
is the raw list of positional root directories (`nargs = '+'`); the
normalization rules are modelled with `path` kept as a list (the final
`options.path = options.path[0]` collapse of lines 323-324 belongs to the
dispatch to `sync`, see `runRootArg`). -/
structure Options where
  dry_run : Bool
  debug : Bool
  verbose : Nat
  max_photos : Nat
  upload : Bool
  download : Bool
  update : Bool
  force_update : Bool
  delete_photos : Bool
  delete_albums : Bool
  path : List String
deriving DecidableEq, Repr

/-- Policy normalization: the flag cross-adjustment section of `run`
(source lines 297-321), rule by rule in source order:
clamp `max_photos` to the Picasa cap; default to bidirectional when
neither direction is requested; disable deletion under bidirectional
sync; disable forced updates under bidirectional sync; force implies
update; disable download and album deletion when several roots are
given. -/
def normalize (o : Options) : Options :=
  let o1 := if MAX_PHOTOS_PER_ALBUM < o.max_photos then { o with max_photos := MAX_PHOTOS_PER_ALBUM } else o
  let o2 := if !o1.upload && !o1.download then { o1 with upload := true, download := true } else o1
  let o3 := if (o2.delete_photos || o2.delete_albums) && o2.upload && o2.download then
      { o2 with delete_photos := false, delete_albums := false } else o2
  let o4 := if o3.force_update && o3.upload && o3.download then { o3 with force_update := false } else o3
  let o5 := if o4.force_update && !o4.update then { o4 with update := true } else o4
  let o6 := if decide (1 < o5.path.length) && (o5.download || o5.delete_albums) then
      { o5 with download := false, delete_albums := false } else o5
  o6

/-- Clamping of `max_photos` to the Picasa cap (source lines 297-299), as
it acts on the numeric field. -/
def clampMax (m : Nat) : Nat :=
  if MAX_PHOTOS_PER_ALBUM < m then MAX_PHOTOS_PER_ALBUM else m

theorem clampMax_idem (m : Nat) : clampMax (clampMax m) = clampMax m := by
  unfold clampMax MAX_PHOTOS_PER_ALBUM
  split_ifs <;> omega

/-- Closed form of `normalize`, field by field. -/
theorem normalize_eq (o : Options) :
    normalize o = { o with
      max_photos := clampMax o.max_photos,
      upload := o.upload || !o.download,
      download := (o.download || !o.upload) && !(decide (1 < o.path.length)),
      update := o.update ||
        (o.force_update && !((o.upload || !o.download) && (o.download || !o.upload))),
      force_update := o.force_update && !((o.upload || !o.download) && (o.download || !o.upload)),
      delete_photos := o.delete_photos && !((o.upload || !o.download) && (o.download || !o.upload)),
      delete_albums := o.delete_albums && !((o.upload || !o.download) && (o.download || !o.upload)) &&
        !(decide (1 < o.path.length)) } := by
  obtain ⟨dr, db, vb, mp, up, dn, ud, fu, dp, da, pa⟩ := o
  by_cases hm : MAX_PHOTOS_PER_ALBUM < mp <;> by_cases hl : 1 < pa.length <;>
    cases up <;> cases dn <;> cases ud <;> cases fu <;> cases dp <;> cases da <;>
      simp [normalize, clampMax, hm, hl]

theorem normalize_path (x : Options) : (normalize x).path = x.path := by
  rw [normalize_eq]

/-- Claim C1: for every raw flag set whose normalized policy has both
`upload` and `download` true, the normalized policy has
`delete_photos = delete_albums = force_update = false`: bidirectional
sync never deletes and never force-updates. -/
theorem claim1_bidirectional_safe (x : Options)
    (hu : (normalize x).upload = true) (hd : (normalize x).download = true) :
    (normalize x).delete_photos = false ∧ (normalize x).delete_albums = false ∧
      (normalize x).force_update = false := by
  obtain ⟨dr, db, vb, mp, up, dn, ud, fu, dp, da, pa⟩ := x
  rw [normalize_eq] at hu hd ⊢
  simp only at hu hd ⊢
  cases up <;> cases dn <;> simp_all

theorem claim1_witness :
    ((normalize ⟨false, false, 0, 1000, false, false, false, false, true, true, ["a"]⟩).upload = true ∧
      (normalize ⟨false, false, 0, 1000, false, false, false, false, true, true, ["a"]⟩).download = true) ∧
    ((normalize ⟨false, false, 0, 1000, false, false, false, false, true, true, ["a"]⟩).delete_photos = false ∧
      (normalize ⟨false, false, 0, 1000, false, false, false, false, true, true, ["a"]⟩).delete_albums = false ∧
      (normalize ⟨false, false, 0, 1000, false, false, false, false, true, true, ["a"]⟩).force_update = false) :=
  ⟨⟨by decide, by decide⟩,
    claim1_bidirectional_safe ⟨false, false, 0, 1000, false, false, false, false, true, true, ["a"]⟩
      (by decide) (by decide)⟩

/-- Claim C2 counterexample: normalization is not idempotent.  With
`upload = false`, `download = true` and two root paths, the first pass
disables `download` (several roots), leaving neither direction enabled,
and a second pass then re-enables both directions via the bidirectional
default, so the two passes disagree. -/
theorem claim2_counterexample :
    normalize (normalize ⟨false, false, 0, 1000, false, true, false, false, false, false, ["a", "b"]⟩) ≠
      normalize ⟨false, false, 0, 1000, false, true, false, false, false, false, ["a", "b"]⟩ := by
  decide

/-- Claim C2 (amended): normalization is idempotent for every raw flag
set in which `upload` is requested, or `download` is not requested, or
at most one root path is given (the only escape is a download-only
request over several roots, where the first pass strips `download` and
leaves no direction enabled). -/
theorem claim2_idempotent_amended (x : Options)
    (h : x.upload = true ∨ x.download = false ∨ x.path.length ≤ 1) :
    normalize (normalize x) = normalize x := by
  obtain ⟨dr, db, vb, mp, up, dn, ud, fu, dp, da, pa⟩ := x
  dsimp only at h
  rw [normalize_eq, normalize_eq]
  simp only [clampMax_idem]
  have hL : decide (1 < pa.length) = false ∨ up = true ∨ dn = false := by
    rcases h with h | h | h
    · right; left; exact h
    · right; right; exact h
    · left
      simp only [decide_eq_false_iff_not]
      omega
  rcases hL with hL | hL | hL <;>
    cases up <;> cases dn <;> cases ud <;> cases fu <;> cases dp <;> cases da <;>
      simp_all

theorem claim2_idempotent_amended_witness :
    ((⟨false, false, 0, 2000, false, true, false, true, true, false, ["a"]⟩ : Options).upload = true ∨
      (⟨false, false, 0, 2000, false, true, false, true, true, false, ["a"]⟩ : Options).download = false ∨
      (⟨false, false, 0, 2000, false, true, false, true, true, false, ["a"]⟩ : Options).path.length ≤ 1) ∧
    normalize (normalize ⟨false, false, 0, 2000, false, true, false, true, true, false, ["a"]⟩) =
      normalize ⟨false, false, 0, 2000, false, true, false, true, true, false, ["a"]⟩ :=
  ⟨by decide,
    claim2_idempotent_amended ⟨false, false, 0, 2000, false, true, false, true, true, false, ["a"]⟩
      (by decide)⟩

/-! ### Local Collection Builder (`get_disk_albums`, source lines 30-54) -/

/-- Supported image MIME types (source line 25). -/
def supported_types : List String :=
  ["image/jpeg", "image/tiff", "image/x-ms-bmp", "image/gif", "image/x-photoshop", "image/png"]

/-- A local photo triple `(photo_title, photo_path, mtime)` (source line 46). -/
structure LocalPhoto where
  title : String
  filename : String
  timestamp : Int
deriving DecidableEq, Repr

/-- A local album key `(album_title, album_dir, mtime)` (source line 39). -/
structure LocalAlbumKey where
  title : String
  dir : String
  ts : Int
deriving DecidableEq, Repr

/-- Lexicographic code point comparison of character lists, the order
Python uses on unicode strings. -/
def charListLe : List Char → List Char → Bool
  | [], _ => true
  | _ :: _, [] => false
  | a :: as, b :: bs =>
    if a.toNat < b.toNat then true
    else if b.toNat < a.toNat then false
    else charListLe as bs

/-- Python string comparison `a <= b` on decoded (unicode) strings. -/
def pyStrLe (a b : String) : Bool := charListLe a.data b.data

/-- The sorted list of supported file names of one directory (source
line 43): filter by MIME type, then sort by filename (Python `sorted`,
a stable sort; so is insertion sort).  `guessType` stands for the
external `mimetypes.guess_type`. -/
def supported_sorted (guessType : String → Option String) (files : List String) : List String :=
  (files.filter fun f => ((guessType f).map fun t => supported_types.contains t).getD false).insertionSort
    (fun a b => pyStrLe a b = true)

/-- The decorated photo triples of one directory (source line 46):
`(safe_decode f, os.path.join(root, f), int(st_mtime))`, with
`safe_decode` the identity on decoded strings and `mtimeOf` standing for
the external `os.stat`. -/
def supported_files_of (guessType : String → Option String) (mtimeOf : String → Int)
    (rootDir : String) (files : List String) : List LocalPhoto :=
  (supported_sorted guessType files).map fun f => ⟨f, rootDir ++ "/" ++ f, mtimeOf f⟩

/-- One step of `get_disk_albums` (source lines 42-53): the processing of
a single visited directory other than the walk root.  `album` is the
directory path relative to the walk root, `rootDir` the absolute visited
directory (`root` in the source), `dirMtime` its own mtime, and
`max_photos` is falsy (`None` or `0`) exactly as in Python.  Returns the
album entries this directory contributes, in insertion order: one entry
when `max_photos` is falsy or the supported file count is strictly below
it, otherwise one entry per chunk of `max_photos` consecutive photos,
with titles suffixed `" (1)"`, `" (2)"`, ... -/
def get_disk_albums_dir (guessType : String → Option String) (mtimeOf : String → Int)
    (rootDir album : String) (dirMtime : Int) (files : List String) (max_photos : Option Nat) :
    List (LocalAlbumKey × List LocalPhoto) :=
  if (supported_sorted guessType files).length = 0 then []
  else if max_photos.getD 0 = 0 ∨
      (supported_files_of guessType mtimeOf rootDir files).length < max_photos.getD 0 then
    [(⟨album, album, dirMtime⟩, supported_files_of guessType mtimeOf rootDir files)]
  else
    (List.range (((supported_files_of guessType mtimeOf rootDir files).length +
        max_photos.getD 0 - 1) / max_photos.getD 0)).map fun i =>
      (⟨album ++ " (" ++ toString (i + 1) ++ ")", album, dirMtime⟩,
        ((supported_files_of guessType mtimeOf rootDir files).drop (i * max_photos.getD 0)).take
          (max_photos.getD 0))

/-- Joining consecutive `take`-of-`drop` chunks of width `c` recovers the
original list, when the chunk count is the rounded-up division. -/
theorem chunks_join {α : Type} (c : Nat) (hc : 0 < c) :
    ∀ (n : Nat) (l : List α), l.length = n →
      ((List.range ((l.length + c - 1) / c)).map fun i => (l.drop (i * c)).take c).flatten = l := by
  intro n
  induction n using Nat.strong_induction_on with
  | _ n ih =>
    intro l hl
    cases l with
    | nil => simp
    | cons a t =>
      simp only [List.length_cons] at hl
      have hk : ((a :: t).length + c - 1) / c = t.length / c + 1 := by
        simp only [List.length_cons]
        have h1 : t.length + 1 + c - 1 = t.length + c := by omega
        rw [h1, Nat.add_div_right _ hc]
      have hdrop : ∀ i : Nat, (a :: t).drop ((i + 1) * c) = ((a :: t).drop c).drop (i * c) := by
        intro i
        rw [List.drop_drop]
        congr 1
        ring
      have harg : t.length / c = (((a :: t).drop c).length + c - 1) / c := by
        rcases Nat.lt_or_ge t.length c with hlt | hge
        · have h0 : ((a :: t).drop c).length = 0 := by
            simp only [List.length_drop, List.length_cons]
            omega
          rw [h0, Nat.div_eq_of_lt hlt]
          have : 0 + c - 1 < c := by omega
          rw [Nat.div_eq_of_lt this]
        · have h0 : ((a :: t).drop c).length = t.length + 1 - c := by
            simp [List.length_drop]
          rw [h0]
          congr 1
          omega
      have hlen : ((a :: t).drop c).length < n := by
        simp only [List.length_drop, List.length_cons]
        omega
      rw [hk, List.range_succ_eq_map, List.map_cons, List.map_map, List.flatten_cons]
      have hcomp : ((fun i => ((a :: t).drop (i * c)).take c) ∘ Nat.succ) =
          fun i => (((a :: t).drop c).drop (i * c)).take c := by
        funext i
        simp only [Function.comp]
        rw [show Nat.succ i = i + 1 from rfl, hdrop i]
      rw [hcomp, show (0 : Nat) * c = 0 from by ring, List.drop_zero]
      have hIH := ih _ hlen ((a :: t).drop c) rfl
      rw [← harg] at hIH
      rw [hIH]
      exact List.take_append_drop c (a :: t)

/-- Claim C4: for a directory with `n ≥ 1` supported photos and cap
`c ≥ 1`, the builder yields `ceil(n/c)` album entries, each holding at
most `c` photos, each carrying the original source directory and the
directory's mtime, and whose concatenation in chunk order is exactly the
filename-sorted supported photo list. -/
theorem claim4_split_correct (g : String → Option String) (mt : String → Int)
    (rootDir album : String) (dirMtime : Int) (files : List String) (c : Nat)
    (hc : 1 ≤ c) (hn : 1 ≤ (supported_files_of g mt rootDir files).length) :
    (get_disk_albums_dir g mt rootDir album dirMtime files (some c)).length =
        ((supported_files_of g mt rootDir files).length + c - 1) / c ∧
      (∀ e ∈ get_disk_albums_dir g mt rootDir album dirMtime files (some c),
        e.2.length ≤ c ∧ e.1.dir = album ∧ e.1.ts = dirMtime) ∧
      (get_disk_albums_dir g mt rootDir album dirMtime files (some c)).flatMap (fun e => e.2) =
        supported_files_of g mt rootDir files := by
  have hlen0 : (supported_sorted g files).length = (supported_files_of g mt rootDir files).length := by
    simp [supported_files_of]
  unfold get_disk_albums_dir
  rw [hlen0]
  have hne : ¬ ((supported_files_of g mt rootDir files).length = 0) := by omega
  rw [if_neg hne]
  set sf := supported_files_of g mt rootDir files with hsf
  simp only [Option.getD_some]
  by_cases hsmall : sf.length < c
  · rw [if_pos (Or.inr hsmall)]
    refine ⟨?_, ?_, ?_⟩
    · have hdiv : (sf.length + c - 1) / c = 1 :=
        Nat.div_eq_of_lt_le (by omega) (by omega)
      simp [hdiv]
    · intro e he
      simp only [List.mem_singleton] at he
      subst he
      refine ⟨?_, rfl, rfl⟩
      dsimp only
      omega
    · simp
  · rw [if_neg (by omega)]
    refine ⟨?_, ?_, ?_⟩
    · simp
    · intro e he
      simp only [List.mem_map, List.mem_range] at he
      obtain ⟨i, _, rfl⟩ := he
      refine ⟨?_, rfl, rfl⟩
      simp only [List.length_take]
      omega
    · rw [List.flatMap_def, List.map_map]
      have hco : ((fun e : LocalAlbumKey × List LocalPhoto => e.2) ∘ fun i =>
          ((⟨album ++ " (" ++ toString (i + 1) ++ ")", album, dirMtime⟩ : LocalAlbumKey),
            (sf.drop (i * c)).take c)) = fun i => (sf.drop (i * c)).take c := rfl
      rw [hco]
      exact chunks_join c (by omega) sf.length sf rfl

/-- Claim C3 evidence: a directory holding exactly `max_photos` supported
files (here two files, cap `2`) is spliced into a single synthetic chunk
whose title carries the `" (1)"` suffix, although its count does not
exceed the cap; the docstring of `get_disk_albums` (source line 35)
promises splicing only for albums with more than `max_photos` photos. -/
theorem claim3_boundary_eval :
    get_disk_albums_dir (fun _ => some "image/jpeg") (fun _ => 7) "/r" "d" 5
        ["b.jpg", "a.jpg"] (some 2) =
      [(⟨"d (1)", "d", 5⟩, [⟨"a.jpg", "/r/a.jpg", 7⟩, ⟨"b.jpg", "/r/b.jpg", 7⟩])] := by
  rfl

theorem claim4_split_correct_witness :
    ((1 : Nat) ≤ 2 ∧
      1 ≤ (supported_files_of (fun _ => some "image/jpeg") (fun _ => 3) "/r"
        ["c.jpg", "a.jpg", "b.jpg"]).length) ∧
    ((get_disk_albums_dir (fun _ => some "image/jpeg") (fun _ => 3) "/r" "d" 9
          ["c.jpg", "a.jpg", "b.jpg"] (some 2)).length =
        ((supported_files_of (fun _ => some "image/jpeg") (fun _ => 3) "/r"
          ["c.jpg", "a.jpg", "b.jpg"]).length + 2 - 1) / 2 ∧
      (∀ e ∈ get_disk_albums_dir (fun _ => some "image/jpeg") (fun _ => 3) "/r" "d" 9
          ["c.jpg", "a.jpg", "b.jpg"] (some 2),
        e.2.length ≤ 2 ∧ e.1.dir = "d" ∧ e.1.ts = 9) ∧
      (get_disk_albums_dir (fun _ => some "image/jpeg") (fun _ => 3) "/r" "d" 9
          ["c.jpg", "a.jpg", "b.jpg"] (some 2)).flatMap (fun e => e.2) =
        supported_files_of (fun _ => some "image/jpeg") (fun _ => 3) "/r"
          ["c.jpg", "a.jpg", "b.jpg"]) :=
  ⟨⟨by decide, by decide⟩,
    claim4_split_correct (fun _ => some "image/jpeg") (fun _ => 3) "/r" "d" 9
      ["c.jpg", "a.jpg", "b.jpg"] 2 (by decide) (by decide)⟩

/-! ### Python dictionaries keyed by title -/

/-- Insertion of one key/value pair into a Python dict held as an
association list in key insertion order: an existing key keeps its
position and gets the new value, a new key is appended. -/
def pyInsert {α : Type} (d : List (String × α)) (k : String) (v : α) : List (String × α) :=
  match d with
  | [] => [(k, v)]
  | (k0, v0) :: rest => if k0 = k then (k, v) :: rest else (k0, v0) :: pyInsert rest k v

/-- Python `dict(pairs)`: fold the pairs left to right, later values for
a duplicated key overwriting earlier ones. -/
def pyDict {α : Type} (l : List (String × α)) : List (String × α) :=
  l.foldl (fun d kv => pyInsert d kv.1 kv.2) []

/-- Python `d[k]` / `k in d` on the association list model. -/
def pyLookup {α : Type} (d : List (String × α)) (k : String) : Option α :=
  (d.find? fun kv => kv.1 == k).map fun kv => kv.2

theorem pyLookup_cons {α : Type} (k0 : String) (v0 : α) (tl : List (String × α)) (q : String) :
    pyLookup ((k0, v0) :: tl) q = if k0 = q then some v0 else pyLookup tl q := by
  by_cases h : k0 = q
  · rw [if_pos h]
    simp [pyLookup, List.find?_cons, h]
  · rw [if_neg h]
    simp [pyLookup, List.find?_cons, h]

theorem pyLookup_pyInsert {α : Type} (d : List (String × α)) (k : String) (v : α) (q : String) :
    pyLookup (pyInsert d k v) q = if k = q then some v else pyLookup d q := by
  induction d with
  | nil =>
    simp only [pyInsert, pyLookup_cons]
  | cons hd tl ih =>
    obtain ⟨k0, v0⟩ := hd
    simp only [pyInsert]
    by_cases h0 : k0 = k
    · rw [if_pos h0]
      subst h0
      rw [pyLookup_cons, pyLookup_cons]
      by_cases hq : k0 = q
      · rw [if_pos hq, if_pos hq]
      · rw [if_neg hq, if_neg hq, if_neg hq]
    · rw [if_neg h0, pyLookup_cons, pyLookup_cons]
      by_cases hq : k0 = q
      · have hkq : ¬ k = q := fun e => h0 (hq.trans e.symm)
        rw [if_pos hq, if_neg hkq, if_pos hq]
      · rw [if_neg hq, if_neg hq, ih]

theorem pyLookup_pyDict_aux {α : Type} (l : List (String × α)) :
    ∀ (d : List (String × α)) (q : String),
      pyLookup (l.foldl (fun d kv => pyInsert d kv.1 kv.2) d) q =
        match l.reverse.find? (fun kv => kv.1 == q) with
        | some kv => some kv.2
        | none => pyLookup d q := by
  induction l with
  | nil => intro d q; simp
  | cons hd tl ih =>
    intro d q
    rw [List.foldl_cons, ih, List.reverse_cons, List.find?_append]
    cases hfound : tl.reverse.find? fun kv => kv.1 == q with
    | some kv => simp [Option.or]
    | none =>
      simp only [Option.none_or]
      cases hbeq : (hd.1 == q) with
      | true =>
        rw [pyLookup_pyInsert, if_pos (by simpa using hbeq)]
        simp [List.find?_cons, hbeq]
      | false =>
        rw [pyLookup_pyInsert, if_neg (by simpa using hbeq)]
        simp [List.find?_cons, hbeq]

/-- Lookup in a Python dict built from a pair list returns the value of
the last pair carrying the key. -/
theorem pyLookup_pyDict {α : Type} (l : List (String × α)) (q : String) :
    pyLookup (pyDict l) q = (l.reverse.find? fun kv => kv.1 == q).map fun kv => kv.2 := by
  rw [pyDict, pyLookup_pyDict_aux]
  cases h : l.reverse.find? fun kv => kv.1 == q <;> simp [pyLookup]

/-! ### Remote Collection Reader (`get_picasa_albums` / `get_picasa_photos`,
source lines 56-81) -/

/-- `_entry_ts` (source lines 27-28): `int(long(entry.timestamp.text) / 1000)`
with the millisecond text already parsed as an integer; Python 2 `/` on
longs is floor division, hence `Int.fdiv`. -/
def _entry_ts (timestampMs : Int) : Int := Int.fdiv timestampMs 1000

/-- A `gdata.photos.PhotoEntry`: decoded title, millisecond timestamp
text, and `content.src` URL. -/
structure RemotePhoto where
  title : String
  timestampMs : Int
  contentSrc : String
deriving DecidableEq, Repr

/-- A `gdata.photos.AlbumEntry` together with the photo feed the service
returns for it (`client.GetEntries` of source line 80). -/
structure RemoteAlbum where
  title : String
  timestampMs : Int
  photoEntries : List RemotePhoto
deriving DecidableEq, Repr

/-- `get_picasa_albums` (source lines 56-67): the service-returned album
list turned into a Python dict keyed by decoded title (`safe_decode` is
the identity on decoded strings). -/
def get_picasa_albums (entries : List RemoteAlbum) : List (String × RemoteAlbum) :=
  pyDict (entries.map fun a => (a.title, a))

/-- `get_picasa_photos` (source lines 69-81): one album's photo feed as a
Python dict keyed by decoded photo title. -/
def get_picasa_photos (album : RemoteAlbum) : List (String × RemotePhoto) :=
  pyDict (album.photoEntries.map fun p => (p.title, p))

/-- Claim C8: when the remote service returns several albums sharing one
title, the title-keyed mapping built by `get_picasa_albums` holds exactly
the last-listed entry for that title; every earlier duplicate is
discarded. -/
theorem claim8_last_duplicate_wins (entries : List RemoteAlbum) (t : String) :
    pyLookup (get_picasa_albums entries) t = entries.reverse.find? fun a => a.title == t := by
  rw [get_picasa_albums, pyLookup_pyDict, ← List.map_reverse, List.find?_map]
  rw [show ((fun kv : String × RemoteAlbum => kv.1 == t) ∘ fun a => (a.title, a)) =
    (fun a : RemoteAlbum => a.title == t) from rfl]
  cases h : entries.reverse.find? fun a => a.title == t <;> simp [h]

/-! ### Action Executor (source lines 95-215) -/

/-- The primitive external mutations the executor can issue: remote API
calls (`InsertPhoto`, `InsertAlbum`, `client.Delete`) and local
filesystem calls (`urlretrieve`, `utime`, `rename`, `makedirs`, `rmdir`,
`remove`). -/
inductive Effect where
  | insertPhoto (photo_title filename : String) (timestampMs : Int)
  | insertAlbum (title : String) (timestampMs : Int)
  | deleteRemotePhoto (photo_title : String)
  | deleteRemoteAlbum (title : String)
  | urlretrieve (src dst : String)
  | utime (path : String) (ts : Int)
  | rename (src dst : String)
  | makedirs (path : String)
  | rmdir (path : String)
  | removeFile (path : String)
deriving DecidableEq, Repr

/-- Python truthiness of `options and options.dry_run` (every executor
function takes a nullable `options` defaulting to `None`). -/
def dryRunOf (options : Option Options) : Bool :=
  match options with
  | none => false
  | some o => o.dry_run

/-- `upload_photo` (source lines 95-107): returns the issued effects and
the log lines.  `infoEnabled` models `LOG.isEnabledFor(logging.INFO)`. -/
def upload_photo (options : Option Options) (infoEnabled : Bool)
    (photo_title filename : String) (timestamp : Int) (reason : Option String) :
    List Effect × List String :=
  let msg := "Uploading file \"" ++ filename ++ "\"" ++ reason.getD ""
  let logs := if dryRunOf options then ["[DRYRUN] " ++ msg] else if infoEnabled then [msg] else []
  let effects := if dryRunOf options then [] else
    [Effect.insertPhoto photo_title filename (timestamp * 1000)]
  (effects, logs)

/-- `download_photo` (source lines 109-124): fetch to a `.part` file, set
its mtime to the remote timestamp, rename it onto the final name. -/
def download_photo (options : Option Options) (infoEnabled : Bool)
    (album_path : String) (photo : RemotePhoto) (reason : Option String) :
    List Effect × List String :=
  let filename := album_path ++ "/" ++ photo.title
  let msg := "Downloading file \"" ++ filename ++ "\"" ++ reason.getD ""
  let logs := if dryRunOf options then ["[DRYRUN] " ++ msg] else if infoEnabled then [msg] else []
  let effects := if dryRunOf options then [] else
    [Effect.urlretrieve photo.contentSrc (filename ++ ".part"),
      Effect.utime (filename ++ ".part") (_entry_ts photo.timestampMs),
      Effect.rename (filename ++ ".part") filename]
  (effects, logs)

/-- `delete_photo` (source lines 126-135): note the log line is emitted
only when a `reason` is given (source line 127). -/
def delete_photo (options : Option Options) (infoEnabled : Bool)
    (photo_title : String) (reason : Option String) :
    List Effect × List String :=
  let msg := "Deleting remote photo \"" ++ photo_title ++ "\"" ++ reason.getD ""
  let logs := if reason.isSome && (dryRunOf options || infoEnabled) then
      (if dryRunOf options then ["[DRYRUN] " ++ msg] else [msg])
    else []
  let effects := if dryRunOf options then [] else [Effect.deleteRemotePhoto photo_title]
  (effects, logs)

/-- `replace_photo` (source lines 137-139): delete the remote copy
(without a reason), then upload the local copy (with the reason). -/
def replace_photo (options : Option Options) (infoEnabled : Bool)
    (photo_title filename : String) (timestamp : Int) (reason : Option String) :
    List Effect × List String :=
  let d := delete_photo options infoEnabled photo_title none
  let u := upload_photo options infoEnabled photo_title filename timestamp reason
  (d.1 ++ u.1, d.2 ++ u.2)

/-- `create_album` (source lines 141-153): returns the created album
handle (modelled as `Unit`), or `none` in dry-run mode. -/
def create_album (options : Option Options) (infoEnabled : Bool)
    (title : String) (timestamp : Int) (reason : Option String) :
    List Effect × List String × Option Unit :=
  let msg := "Uploading album \"" ++ title ++ "\"" ++ reason.getD ""
  let logs := if dryRunOf options then ["[DRYRUN] " ++ msg] else if infoEnabled then [msg] else []
  if dryRunOf options then ([], logs, none)
  else ([Effect.insertAlbum title (timestamp * 1000)], logs, some ())

/-- `delete_album` (source lines 155-164). -/
def delete_album (options : Option Options) (infoEnabled : Bool)
    (title : String) (reason : Option String) :
    List Effect × List String :=
  let msg := "Deleting album \"" ++ title ++ "\"" ++ reason.getD ""
  let logs := if dryRunOf options then ["[DRYRUN] " ++ msg] else if infoEnabled then [msg] else []
  let effects := if dryRunOf options then [] else [Effect.deleteRemoteAlbum title]
  (effects, logs)

/-- The value `create_dir` returns (source lines 176-185): the joined
path, except `None` when the directory creation fails in live mode
(`mkdirFails` injects the exception of the `try` block; in dry-run mode
the `try` block is skipped and the path is returned untouched). -/
def create_dir_result (options : Option Options) (mkdirFails : String → Bool)
    (root title : String) : Option String :=
  let path := root ++ "/" ++ title
  if !(dryRunOf options) && mkdirFails path then none else some path

/-- `create_dir` (source lines 166-185): make the directory if missing,
set its mtime; on an exception log a warning and return `None`. -/
def create_dir (options : Option Options) (infoEnabled : Bool)
    (mkdirFails isdir : String → Bool) (root title : String) (timestamp : Int)
    (reason : Option String) :
    List Effect × List String × Option String :=
  let path := root ++ "/" ++ title
  let msg := "Creating directory \"" ++ path ++ "\"" ++ reason.getD ""
  let logs := if dryRunOf options then ["[DRYRUN] " ++ msg] else if infoEnabled then [msg] else []
  if dryRunOf options then ([], logs, create_dir_result options mkdirFails root title)
  else if mkdirFails path then
    ([], logs ++ ["Cannot create local directory: error"], create_dir_result options mkdirFails root title)
  else ((if isdir path then [] else [Effect.makedirs path]) ++ [Effect.utime path timestamp],
    logs, create_dir_result options mkdirFails root title)

/-- `delete_dir` (source lines 187-201): the `os.rmdir` call is attempted
(its effect recorded); `rmFails` injects the exception, which only adds
a warning line. -/
def delete_dir (options : Option Options) (infoEnabled : Bool) (rmFails : String → Bool)
    (root title : String) (reason : Option String) :
    List Effect × List String :=
  let path := root ++ "/" ++ title
  let msg := "Deleting directory \"" ++ path ++ "\"" ++ reason.getD ""
  let logs := if dryRunOf options then ["[DRYRUN] " ++ msg] else if infoEnabled then [msg] else []
  if dryRunOf options then ([], logs)
  else ([Effect.rmdir path], logs ++ (if rmFails path then ["Cannot delete local directory: error"] else []))

/-- `delete_file` (source lines 203-215). -/
def delete_file (options : Option Options) (infoEnabled : Bool) (rmFails : String → Bool)
    (filename : String) (reason : Option String) :
    List Effect × List String :=
  let msg := "Deleting file \"" ++ filename ++ "\"" ++ reason.getD ""
  let logs := if dryRunOf options then ["[DRYRUN] " ++ msg] else if infoEnabled then [msg] else []
  if dryRunOf options then ([], logs)
  else ([Effect.removeFile filename], logs ++ (if rmFails filename then ["Cannot delete local file: error"] else []))

/-! ### Reconciliation Planner (`sync`, source lines 217-269) -/

/-- One planned executor invocation, with the arguments of the call site.
`updateDownload` is the `download_photo` call of source line 252 (the
overwrite of a common photo whose remote copy wins), `downloadPhoto` the
calls of source lines 259 and 269 (remote photo missing locally). -/
inductive Action where
  | createAlbum (title : String) (ts : Int) (reason : Option String)
  | uploadPhoto (photo_title filename : String) (ts : Int) (reason : Option String)
  | replacePhoto (photo_title filename : String) (ts : Int) (reason : Option String)
  | updateDownload (album_path : Option String) (photo : RemotePhoto) (reason : Option String)
  | downloadPhoto (album_path : Option String) (photo : RemotePhoto) (reason : Option String)
  | deletePhoto (photo_title : String) (reason : Option String)
  | deleteAlbum (title : String) (reason : Option String)
  | createDir (title : String) (ts : Int) (reason : Option String)
  | deleteDir (title : String) (reason : Option String)
  | deleteFile (filename : String) (reason : Option String)
deriving DecidableEq, Repr

def Action.isReplacePhoto : Action → Bool
  | .replacePhoto _ _ _ _ => true
  | _ => false

def Action.isUpdateDownload : Action → Bool
  | .updateDownload _ _ _ => true
  | _ => false

/-- The common-photo body of `sync` (source lines 240-252): one local
photo of an album that exists on both sides. -/
def syncCommonPhoto (o : Options) (album_title root album_dir : String)
    (picasa_photos : List (String × RemotePhoto)) (p : LocalPhoto) : List Action :=
  match pyLookup picasa_photos p.title with
  | none =>
    (if o.upload then
      [Action.uploadPhoto p.title p.filename p.timestamp
        (some (" because it is not in the album \"" ++ album_title ++ "\""))] else []) ++
    (if o.download && o.delete_photos then
      [Action.deleteFile p.filename
        (some (" because it is not in the album \"" ++ album_title ++ "\""))] else [])
  | some rp =>
    if o.update then
      (if o.upload && (decide (_entry_ts rp.timestampMs < p.timestamp) || o.force_update) then
        [Action.replacePhoto rp.title p.filename p.timestamp
          (some (" " ++ (if o.force_update then "[FORCED] " else "") ++
            "because it is newer than the one in the album \"" ++ album_title ++ "\""))] else []) ++
      (if o.download && (decide (p.timestamp < _entry_ts rp.timestampMs) || o.force_update) then
        [Action.updateDownload (some (root ++ "/" ++ album_dir)) rp
          (some (" " ++ (if o.force_update then "[FORCED] " else "") ++
            "because it is newer than the one in the album \"" ++ album_title ++ "\""))] else [])
    else []

/-- The per-local-album body of `sync` (source lines 225-259). -/
def syncDiskAlbum (o : Options) (root : String) (picasa_albums : List (String × RemoteAlbum))
    (entry : LocalAlbumKey × List LocalPhoto) : List Action :=
  match pyLookup picasa_albums entry.1.title with
  | none =>
    (if o.upload then
      Action.createAlbum entry.1.title entry.1.ts (some " because it does not exist in Picasa") ::
        entry.2.map (fun p => Action.uploadPhoto p.title p.filename p.timestamp none)
     else []) ++
    (if o.download && o.delete_albums then
      entry.2.map (fun p => Action.deleteFile p.filename none) ++
        [Action.deleteDir entry.1.dir (some " because it does not exist in Picasa")]
     else [])
  | some album =>
    (entry.2.flatMap (syncCommonPhoto o entry.1.title root entry.1.dir (get_picasa_photos album))) ++
    ((get_picasa_photos album).filter
        (fun tp => !((entry.2.map (fun p => p.title)).contains tp.1))).flatMap
      (fun tp =>
        (if o.upload && o.delete_photos then
          [Action.deletePhoto tp.2.title (some " because it does not exist in the local album")]
         else []) ++
        (if o.download then
          [Action.downloadPhoto (some (root ++ "/" ++ entry.1.dir)) tp.2
            (some " because it does not exist in the local album")] else []))

/-- The remote-only-album body of `sync` (source lines 261-269).  The
album directory passed to the downloads is the value `create_dir`
returned, `None` included. -/
def syncRemoteAlbum (o : Options) (root : String) (mkdirFails : String → Bool)
    (ta : String × RemoteAlbum) : List Action :=
  (if o.upload && o.delete_albums then
    [Action.deleteAlbum ta.2.title (some " because it does not exist locally")] else []) ++
  (if o.download then
    Action.createDir ta.1 (_entry_ts ta.2.timestampMs)
        (some " because it does not exist on the local albums") ::
      (get_picasa_photos ta.2).map (fun q =>
        Action.downloadPhoto (create_dir_result (some o) mkdirFails root ta.1) q.2
          (some (" because it does not exist on the local album \"" ++ ta.1 ++ "\"")))
   else [])

/-- `sync` (source lines 217-269) as the ordered list of executor calls
it performs.  `disk_albums` is the output of the Local Collection
Builder, `picasa_entries` the service-returned remote album list. -/
def sync (o : Options) (root : String) (disk_albums : List (LocalAlbumKey × List LocalPhoto))
    (picasa_entries : List RemoteAlbum) (mkdirFails : String → Bool) : List Action :=
  let picasa_albums := get_picasa_albums picasa_entries
  disk_albums.flatMap (syncDiskAlbum o root picasa_albums) ++
    (picasa_albums.filter
        (fun ta => !((disk_albums.map (fun e => e.1.title)).contains ta.1))).flatMap
      (syncRemoteAlbum o root mkdirFails)

/-- Dispatch of one planned action to its executor function. A download
whose album path is `None` is the Python `TypeError` raised by
`os.path.join(None, ...)` before anything is logged or mutated. -/
def executeAction (options : Option Options) (infoEnabled : Bool)
    (isdir mkdirFails rmFails : String → Bool) (root : String) :
    Action → Except String (List Effect × List String)
  | .createAlbum t ts r =>
    let c := create_album options infoEnabled t ts r
    .ok (c.1, c.2.1)
  | .uploadPhoto pt f ts r => .ok (upload_photo options infoEnabled pt f ts r)
  | .replacePhoto pt f ts r => .ok (replace_photo options infoEnabled pt f ts r)
  | .updateDownload none _ _ => .error "TypeError: album_path is None"
  | .updateDownload (some d) p r => .ok (download_photo options infoEnabled d p r)
  | .downloadPhoto none _ _ => .error "TypeError: album_path is None"
  | .downloadPhoto (some d) p r => .ok (download_photo options infoEnabled d p r)
  | .deletePhoto pt r => .ok (delete_photo options infoEnabled pt r)
  | .deleteAlbum t r => .ok (delete_album options infoEnabled t r)
  | .createDir t ts r =>
    let c := create_dir options infoEnabled mkdirFails isdir root t ts r
    .ok (c.1, c.2.1)
  | .deleteDir t r => .ok (delete_dir options infoEnabled rmFails root t r)
  | .deleteFile f r => .ok (delete_file options infoEnabled rmFails f r)

theorem mem_ite_nil_elim {α : Type} {c : Prop} [Decidable c] {l : List α} {a : α}
    (h : a ∈ if c then l else []) : c ∧ a ∈ l := by
  by_cases hc : c
  · rw [if_pos hc] at h; exact ⟨hc, h⟩
  · rw [if_neg hc] at h; cases h

/-- Exhaustive description of the actions `sync` can emit: every member
of the plan is one of the listed call shapes; a `replacePhoto` or
`updateDownload` moreover witnesses a matched album and photo pair whose
timestamp comparison (or the force flag) fired, and in dry-run mode
every download carries a concrete album path. -/
theorem mem_sync_cases (o : Options) (root : String)
    (disk : List (LocalAlbumKey × List LocalPhoto)) (picasa : List RemoteAlbum)
    (mk : String → Bool) (a : Action)
    (ha : a ∈ sync o root disk picasa mk) :
    (∃ t ts, a = Action.createAlbum t ts (some " because it does not exist in Picasa")) ∨
    (∃ pt f ts r, a = Action.uploadPhoto pt f ts r) ∨
    (∃ f r, a = Action.deleteFile f r) ∨
    (∃ t, a = Action.deleteDir t (some " because it does not exist in Picasa")) ∨
    (∃ pt, a = Action.deletePhoto pt (some " because it does not exist in the local album")) ∨
    (∃ t, a = Action.deleteAlbum t (some " because it does not exist locally")) ∨
    (∃ t ts, a = Action.createDir t ts (some " because it does not exist on the local albums")) ∨
    (∃ pth p r, a = Action.downloadPhoto pth p (some r) ∧
      (o.dry_run = true → pth.isSome = true)) ∨
    (∃ e p ra rp, e ∈ disk ∧ p ∈ e.2 ∧
      pyLookup (get_picasa_albums picasa) e.1.title = some ra ∧
      pyLookup (get_picasa_photos ra) p.title = some rp ∧
      o.update = true ∧
      (o.upload && (decide (_entry_ts rp.timestampMs < p.timestamp) || o.force_update)) = true ∧
      ∃ r, a = Action.replacePhoto rp.title p.filename p.timestamp (some r)) ∨
    (∃ e p ra rp, e ∈ disk ∧ p ∈ e.2 ∧
      pyLookup (get_picasa_albums picasa) e.1.title = some ra ∧
      pyLookup (get_picasa_photos ra) p.title = some rp ∧
      o.update = true ∧
      (o.download && (decide (p.timestamp < _entry_ts rp.timestampMs) || o.force_update)) = true ∧
      ∃ pth r, pth.isSome = true ∧ a = Action.updateDownload pth rp (some r)) := by
  simp only [sync] at ha
  rcases List.mem_append.mp ha with h | h
  · rcases List.mem_flatMap.mp h with ⟨e, he, hae⟩
    cases hra : pyLookup (get_picasa_albums picasa) e.1.title with
    | none =>
      rw [syncDiskAlbum, hra] at hae
      rcases List.mem_append.mp hae with h1 | h1
      · obtain ⟨-, h1⟩ := mem_ite_nil_elim h1
        rcases List.mem_cons.mp h1 with rfl | h2
        · exact Or.inl ⟨_, _, rfl⟩
        · rcases List.mem_map.mp h2 with ⟨p, hp, rfl⟩
          exact Or.inr (Or.inl ⟨_, _, _, _, rfl⟩)
      · obtain ⟨-, h1⟩ := mem_ite_nil_elim h1
        rcases List.mem_append.mp h1 with h2 | h2
        · rcases List.mem_map.mp h2 with ⟨p, hp, rfl⟩
          exact Or.inr (Or.inr (Or.inl ⟨_, _, rfl⟩))
        · rcases List.mem_singleton.mp h2 with rfl
          exact Or.inr (Or.inr (Or.inr (Or.inl ⟨_, rfl⟩)))
    | some ra =>
      rw [syncDiskAlbum, hra] at hae
      rcases List.mem_append.mp hae with h1 | h1
      · rcases List.mem_flatMap.mp h1 with ⟨p, hp, hap⟩
        cases hrp : pyLookup (get_picasa_photos ra) p.title with
        | none =>
          rw [syncCommonPhoto, hrp] at hap
          rcases List.mem_append.mp hap with h2 | h2
          · obtain ⟨-, h2⟩ := mem_ite_nil_elim h2
            rcases List.mem_singleton.mp h2 with rfl
            exact Or.inr (Or.inl ⟨_, _, _, _, rfl⟩)
          · obtain ⟨-, h2⟩ := mem_ite_nil_elim h2
            rcases List.mem_singleton.mp h2 with rfl
            exact Or.inr (Or.inr (Or.inl ⟨_, _, rfl⟩))
        | some rp =>
          rw [syncCommonPhoto, hrp] at hap
          cases hu : o.update with
          | false => rw [hu] at hap; simp at hap
          | true =>
            rw [hu] at hap
            simp only [if_true] at hap
            rcases List.mem_append.mp hap with h2 | h2
            · obtain ⟨hcond, h2⟩ := mem_ite_nil_elim h2
              rcases List.mem_singleton.mp h2 with rfl
              refine Or.inr (Or.inr (Or.inr (Or.inr (Or.inr (Or.inr (Or.inr (Or.inr (Or.inl
                ⟨e, p, ra, rp, he, hp, hra, hrp, rfl, hcond, _, rfl⟩))))))))
            · obtain ⟨hcond, h2⟩ := mem_ite_nil_elim h2
              rcases List.mem_singleton.mp h2 with rfl
              refine Or.inr (Or.inr (Or.inr (Or.inr (Or.inr (Or.inr (Or.inr (Or.inr (Or.inr
                ⟨e, p, ra, rp, he, hp, hra, hrp, rfl, hcond,
                  some (root ++ "/" ++ e.1.dir), _, rfl, rfl⟩))))))))
      · rcases List.mem_flatMap.mp h1 with ⟨tp, htp, hatp⟩
        rcases List.mem_append.mp hatp with h2 | h2
        · obtain ⟨-, h2⟩ := mem_ite_nil_elim h2
          rcases List.mem_singleton.mp h2 with rfl
          exact Or.inr (Or.inr (Or.inr (Or.inr (Or.inl ⟨_, rfl⟩))))
        · obtain ⟨-, h2⟩ := mem_ite_nil_elim h2
          rcases List.mem_singleton.mp h2 with rfl
          exact Or.inr (Or.inr (Or.inr (Or.inr (Or.inr (Or.inr (Or.inr (Or.inl
            ⟨_, _, _, rfl, fun _ => rfl⟩)))))))
  · rcases List.mem_flatMap.mp h with ⟨ta, hta, haa⟩
    rw [syncRemoteAlbum] at haa
    rcases List.mem_append.mp haa with h1 | h1
    · obtain ⟨-, h1⟩ := mem_ite_nil_elim h1
      rcases List.mem_singleton.mp h1 with rfl
      exact Or.inr (Or.inr (Or.inr (Or.inr (Or.inr (Or.inl ⟨_, rfl⟩)))))
    · obtain ⟨-, h1⟩ := mem_ite_nil_elim h1
      rcases List.mem_cons.mp h1 with rfl | h2
      · exact Or.inr (Or.inr (Or.inr (Or.inr (Or.inr (Or.inr (Or.inl ⟨_, _, rfl⟩))))))
      · rcases List.mem_map.mp h2 with ⟨q, hq, rfl⟩
        refine Or.inr (Or.inr (Or.inr (Or.inr (Or.inr (Or.inr (Or.inr (Or.inl
          ⟨_, _, _, rfl, ?_⟩)))))))
        intro hdry
        simp [create_dir_result, dryRunOf, hdry]

/-- Claim C5: with `update` enabled and `force_update` disabled, a photo
present in both a matched local and remote album with equal timestamps
produces no action: the plan holds no `replacePhoto` and no
`updateDownload`, so identical collections with equal timestamps yield
zero such actions. -/
theorem claim5_tie_is_noop (o : Options) (root : String)
    (disk : List (LocalAlbumKey × List LocalPhoto)) (picasa : List RemoteAlbum)
    (mk : String → Bool)
    (hupd : o.update = true) (hforce : o.force_update = false)
    (heq : ∀ e ∈ disk, ∀ p ∈ e.2, ∀ ra ∈ pyLookup (get_picasa_albums picasa) e.1.title,
      ∀ rp ∈ pyLookup (get_picasa_photos ra) p.title, p.timestamp = _entry_ts rp.timestampMs) :
    ∀ a ∈ sync o root disk picasa mk,
      a.isReplacePhoto = false ∧ a.isUpdateDownload = false := by
  intro a ha
  rcases mem_sync_cases o root disk picasa mk a ha with
    ⟨t, ts, rfl⟩ | ⟨pt, f, ts, r, rfl⟩ | ⟨f, r, rfl⟩ | ⟨t, rfl⟩ | ⟨pt, rfl⟩ | ⟨t, rfl⟩ |
    ⟨t, ts, rfl⟩ | ⟨pth, p, r, rfl, -⟩ |
    ⟨e, p, ra, rp, he, hp, hra, hrp, -, hcond, r, rfl⟩ |
    ⟨e, p, ra, rp, he, hp, hra, hrp, -, hcond, pth, r, -, rfl⟩
  · exact ⟨rfl, rfl⟩
  · exact ⟨rfl, rfl⟩
  · exact ⟨rfl, rfl⟩
  · exact ⟨rfl, rfl⟩
  · exact ⟨rfl, rfl⟩
  · exact ⟨rfl, rfl⟩
  · exact ⟨rfl, rfl⟩
  · exact ⟨rfl, rfl⟩
  · exfalso
    have hts := heq e he p hp ra (Option.mem_def.mpr hra) rp (Option.mem_def.mpr hrp)
    rw [hforce, hts] at hcond
    simp at hcond
  · exfalso
    have hts := heq e he p hp ra (Option.mem_def.mpr hra) rp (Option.mem_def.mpr hrp)
    rw [hforce, hts] at hcond
    simp at hcond

theorem claim5_tie_is_noop_witness :
    (let o : Options := ⟨false, false, 0, 1000, true, true, true, false, false, false, ["/r"]⟩
    let disk : List (LocalAlbumKey × List LocalPhoto) :=
      [(⟨"T", "T", 5⟩, [⟨"a.jpg", "/r/T/a.jpg", 3⟩])]
    let picasa : List RemoteAlbum := [⟨"T", 3500, [⟨"a.jpg", 3999, "http:u"⟩]⟩]
    (o.update = true ∧ o.force_update = false ∧
      (∀ e ∈ disk, ∀ p ∈ e.2, ∀ ra ∈ pyLookup (get_picasa_albums picasa) e.1.title,
        ∀ rp ∈ pyLookup (get_picasa_photos ra) p.title,
          p.timestamp = _entry_ts rp.timestampMs)) ∧
      ∀ a ∈ sync o "/r" disk picasa (fun _ => false),
        a.isReplacePhoto = false ∧ a.isUpdateDownload = false) :=
  ⟨⟨by decide, by decide, by decide⟩,
    claim5_tie_is_noop _ "/r" _ _ (fun _ => false) (by decide) (by decide) (by decide)⟩

/-! ### `run` (source lines 271-326): dispatch to `sync` -/

/-- The root argument `run` hands to `sync`: either the single path
(collapsed from a one-element list, source lines 323-324) or the whole
list (as `options.path` remains a list when several paths are given). -/
inductive RootArg where
  | single (p : String)
  | multi (ps : List String)
deriving DecidableEq, Repr

/-- The collapse of source lines 323-324: a one-element path list is
replaced by its sole element, any other list is passed through whole. -/
def collapseRoot (ps : List String) : RootArg :=
  match ps with
  | [p] => RootArg.single p
  | ps => RootArg.multi ps

/-- The dispatch tail of `run` (source lines 297-326): normalize the
options, collapse a one-element path list to its sole element, and call
`sync` once with the result. -/
def runRootArg (x : Options) : RootArg :=
  collapseRoot (normalize x).path

/-- The list of `sync` invocations `run` performs (source line 326):
exactly one, on `runRootArg`. -/
def runSyncCalls (x : Options) : List RootArg := [runRootArg x]

/-- Claim C9: `run` invokes `sync` exactly once; a single root path is
collapsed to its sole element, while several root paths are passed
through as the entire list in one invocation — the roots are never
iterated or synced individually. -/
theorem claim9_single_sync_call (x : Options) :
    (runSyncCalls x).length = 1 ∧
    (∀ p, x.path = [p] → runSyncCalls x = [RootArg.single p]) ∧
    (1 < x.path.length → runSyncCalls x = [RootArg.multi x.path]) := by
  refine ⟨rfl, ?_, ?_⟩
  · intro p hp
    show [collapseRoot (normalize x).path] = _
    rw [normalize_path, hp]
    rfl
  · intro hlen
    show [collapseRoot (normalize x).path] = _
    rw [normalize_path]
    match x.path, hlen with
    | p1 :: p2 :: ps, _ => rfl

theorem claim9_single_sync_call_witness :
    (runSyncCalls ⟨false, false, 0, 1000, true, false, false, false, false, false, ["a", "b"]⟩).length = 1 ∧
    1 < (["a", "b"] : List String).length ∧
    runSyncCalls ⟨false, false, 0, 1000, true, false, false, false, false, false, ["a", "b"]⟩ =
      [RootArg.multi ["a", "b"]] :=
  ⟨(claim9_single_sync_call ⟨false, false, 0, 1000, true, false, false, false, false, false, ["a", "b"]⟩).1,
    by decide,
    (claim9_single_sync_call ⟨false, false, 0, 1000, true, false, false, false, false, false, ["a", "b"]⟩).2.2
      (by decide)⟩

/-- Claim C10: when creating the local directory for a remote-only album
fails in live mode, `create_dir` logs a warning and returns `None`, yet
the plan still holds a `downloadPhoto` with the `None` directory path for
every photo of that remote album: the failure does not make `sync` skip
the album's downloads. -/
theorem claim10_mkdir_failure_downloads (o : Options) (root : String)
    (disk : List (LocalAlbumKey × List LocalPhoto)) (picasa : List RemoteAlbum)
    (mk isdir : String → Bool) (ie : Bool) (ta : String × RemoteAlbum)
    (hdl : o.download = true) (hlive : o.dry_run = false)
    (hmem : ta ∈ get_picasa_albums picasa)
    (hnotlocal : ((disk.map (fun e => e.1.title)).contains ta.1) = false)
    (hfail : mk (root ++ "/" ++ ta.1) = true) :
    (create_dir (some o) ie mk isdir root ta.1 (_entry_ts ta.2.timestampMs)
        (some " because it does not exist on the local albums")).2.2 = none ∧
    "Cannot create local directory: error" ∈
      (create_dir (some o) ie mk isdir root ta.1 (_entry_ts ta.2.timestampMs)
        (some " because it does not exist on the local albums")).2.1 ∧
    ∀ q ∈ get_picasa_photos ta.2,
      Action.downloadPhoto none q.2
          (some (" because it does not exist on the local album \"" ++ ta.1 ++ "\"")) ∈
        sync o root disk picasa mk := by
  have hres : create_dir_result (some o) mk root ta.1 = none := by
    simp [create_dir_result, dryRunOf, hlive, hfail]
  refine ⟨?_, ?_, ?_⟩
  · simp [create_dir, dryRunOf, hlive, hfail, hres]
  · simp [create_dir, dryRunOf, hlive, hfail]
  · intro q hq
    simp only [sync, List.mem_append]
    right
    rw [List.mem_flatMap]
    refine ⟨ta, ?_, ?_⟩
    · rw [List.mem_filter]
      refine ⟨hmem, ?_⟩
      show (!((disk.map (fun e => e.1.title)).contains ta.1)) = true
      rw [hnotlocal]
      rfl
    · rw [syncRemoteAlbum]
      apply List.mem_append_right
      rw [if_pos hdl]
      apply List.mem_cons_of_mem
      rw [hres] at *
      exact List.mem_map.mpr ⟨q, hq, by rw [hres]⟩

theorem claim10_mkdir_failure_downloads_witness :
    (let o : Options := ⟨false, false, 0, 1000, false, true, false, false, false, false, ["/r"]⟩
    let picasa : List RemoteAlbum := [⟨"T", 3500, [⟨"a.jpg", 3999, "http:u"⟩]⟩]
    let ta : String × RemoteAlbum := ("T", ⟨"T", 3500, [⟨"a.jpg", 3999, "http:u"⟩]⟩)
    (o.download = true ∧ o.dry_run = false ∧
      ta ∈ get_picasa_albums picasa ∧
      ((([] : List (LocalAlbumKey × List LocalPhoto)).map (fun e => e.1.title)).contains ta.1) = false ∧
      (fun _ => true : String → Bool) ("/r" ++ "/" ++ ta.1) = true) ∧
    (create_dir (some o) false (fun _ => true) (fun _ => false) "/r" ta.1
        (_entry_ts ta.2.timestampMs)
        (some " because it does not exist on the local albums")).2.2 = none ∧
    "Cannot create local directory: error" ∈
      (create_dir (some o) false (fun _ => true) (fun _ => false) "/r" ta.1
        (_entry_ts ta.2.timestampMs)
        (some " because it does not exist on the local albums")).2.1 ∧
    ∀ q ∈ get_picasa_photos ta.2,
      Action.downloadPhoto none q.2
          (some (" because it does not exist on the local album \"" ++ ta.1 ++ "\"")) ∈
        sync o "/r" [] picasa (fun _ => true)) :=
  ⟨⟨by decide, by decide, by decide, by decide, by decide⟩,
    claim10_mkdir_failure_downloads _ "/r" [] _ (fun _ => true) (fun _ => false) false _
      (by decide) (by decide) (by decide) (by decide) (by decide)⟩

/-- Claim C6: for a common photo under `update`, a `replacePhoto` is
emitted exactly when `upload` is enabled and the local copy is strictly
newer (or `force_update` is set), and an `updateDownload` exactly when
`download` is enabled and the local copy is strictly older (or
`force_update` is set); in live mode `replace_photo` issues the remote
deletion followed by the upload of the local file, and the download
overwrites the local file with the remote content and the remote
timestamp via a temporary `.part` file. -/
theorem claim6_update_rules (o : Options) (album_title root album_dir : String)
    (pp : List (String × RemotePhoto)) (p : LocalPhoto) (rp : RemotePhoto)
    (options : Option Options) (ie : Bool)
    (hupd : o.update = true) (hfound : pyLookup pp p.title = some rp)
    (hlive : dryRunOf options = false) :
    ((syncCommonPhoto o album_title root album_dir pp p).any Action.isReplacePhoto = true ↔
      o.upload = true ∧ (_entry_ts rp.timestampMs < p.timestamp ∨ o.force_update = true)) ∧
    ((syncCommonPhoto o album_title root album_dir pp p).any Action.isUpdateDownload = true ↔
      o.download = true ∧ (p.timestamp < _entry_ts rp.timestampMs ∨ o.force_update = true)) ∧
    (∀ reason, (replace_photo options ie rp.title p.filename p.timestamp reason).1 =
      [Effect.deleteRemotePhoto rp.title,
        Effect.insertPhoto rp.title p.filename (p.timestamp * 1000)]) ∧
    (∀ (d : String) (reason : Option String),
      (download_photo options ie d rp reason).1 =
        [Effect.urlretrieve rp.contentSrc (d ++ "/" ++ rp.title ++ ".part"),
          Effect.utime (d ++ "/" ++ rp.title ++ ".part") (_entry_ts rp.timestampMs),
          Effect.rename (d ++ "/" ++ rp.title ++ ".part") (d ++ "/" ++ rp.title)]) := by
  refine ⟨?_, ?_, ?_, ?_⟩
  · rw [syncCommonPhoto, hfound, hupd]
    simp only [if_true]
    cases hup : o.upload <;> cases hfu : o.force_update <;> cases hdn : o.download <;>
      by_cases h1 : _entry_ts rp.timestampMs < p.timestamp <;>
        by_cases h2 : p.timestamp < _entry_ts rp.timestampMs <;>
          simp [h1, h2, Action.isReplacePhoto, Action.isUpdateDownload]
  · rw [syncCommonPhoto, hfound, hupd]
    simp only [if_true]
    cases hup : o.upload <;> cases hfu : o.force_update <;> cases hdn : o.download <;>
      by_cases h1 : _entry_ts rp.timestampMs < p.timestamp <;>
        by_cases h2 : p.timestamp < _entry_ts rp.timestampMs <;>
          simp [h1, h2, Action.isReplacePhoto, Action.isUpdateDownload]
  · intro reason
    simp [replace_photo, delete_photo, upload_photo, hlive]
  · intro d reason
    simp [download_photo, hlive]

theorem claim6_update_rules_witness :
    (let o : Options := ⟨false, false, 0, 1000, true, true, true, false, false, false, ["/r"]⟩
    let rp : RemotePhoto := ⟨"a.jpg", 1999, "http:u"⟩
    let p : LocalPhoto := ⟨"a.jpg", "/r/T/a.jpg", 5⟩
    (o.update = true ∧ pyLookup [("a.jpg", rp)] p.title = some rp ∧
        dryRunOf (some o) = false) ∧
    ((syncCommonPhoto o "T" "/r" "T" [("a.jpg", rp)] p).any Action.isReplacePhoto = true ↔
      o.upload = true ∧ (_entry_ts rp.timestampMs < p.timestamp ∨ o.force_update = true)) ∧
    ((syncCommonPhoto o "T" "/r" "T" [("a.jpg", rp)] p).any Action.isUpdateDownload = true ↔
      o.download = true ∧ (p.timestamp < _entry_ts rp.timestampMs ∨ o.force_update = true)) ∧
    (∀ reason, (replace_photo (some o) false rp.title p.filename p.timestamp reason).1 =
      [Effect.deleteRemotePhoto rp.title,
        Effect.insertPhoto rp.title p.filename (p.timestamp * 1000)]) ∧
    (∀ (d : String) (reason : Option String),
      (download_photo (some o) false d rp reason).1 =
        [Effect.urlretrieve rp.contentSrc (d ++ "/" ++ rp.title ++ ".part"),
          Effect.utime (d ++ "/" ++ rp.title ++ ".part") (_entry_ts rp.timestampMs),
          Effect.rename (d ++ "/" ++ rp.title ++ ".part") (d ++ "/" ++ rp.title)])) :=
  ⟨⟨by decide, by decide, by decide⟩,
    claim6_update_rules ⟨false, false, 0, 1000, true, true, true, false, false, false, ["/r"]⟩
      "T" "/r" "T" [("a.jpg", ⟨"a.jpg", 1999, "http:u"⟩)] ⟨"a.jpg", "/r/T/a.jpg", 5⟩
      ⟨"a.jpg", 1999, "http:u"⟩ (some ⟨false, false, 0, 1000, true, true, true, false, false, false, ["/r"]⟩)
      false (by decide) (by decide) (by decide)⟩

/-! ### Dry-run behaviour of the executor -/

theorem dry_logs_ok (msg : String) :
    ∀ l ∈ ["[DRYRUN] " ++ msg], ∃ m, l = "[DRYRUN] " ++ m := by
  intro l hl
  rcases List.mem_singleton.mp hl with rfl
  exact ⟨msg, rfl⟩

theorem upload_photo_dry {options : Option Options} (h : dryRunOf options = true)
    (ie : Bool) (pt f : String) (ts : Int) (r : Option String) :
    upload_photo options ie pt f ts r =
      ([], ["[DRYRUN] " ++ ("Uploading file \"" ++ f ++ "\"" ++ r.getD "")]) := by
  simp [upload_photo, h]

theorem download_photo_dry {options : Option Options} (h : dryRunOf options = true)
    (ie : Bool) (d : String) (p : RemotePhoto) (r : Option String) :
    download_photo options ie d p r =
      ([], ["[DRYRUN] " ++ ("Downloading file \"" ++ (d ++ "/" ++ p.title) ++ "\"" ++ r.getD "")]) := by
  simp [download_photo, h]

theorem delete_photo_dry {options : Option Options} (h : dryRunOf options = true)
    (ie : Bool) (pt s : String) :
    delete_photo options ie pt (some s) =
      ([], ["[DRYRUN] " ++ ("Deleting remote photo \"" ++ pt ++ "\"" ++ s)]) := by
  simp [delete_photo, h]

theorem delete_photo_dry_none {options : Option Options} (h : dryRunOf options = true)
    (ie : Bool) (pt : String) :
    delete_photo options ie pt none = ([], []) := by
  simp [delete_photo, h]

theorem replace_photo_dry {options : Option Options} (h : dryRunOf options = true)
    (ie : Bool) (pt f : String) (ts : Int) (r : Option String) :
    replace_photo options ie pt f ts r =
      ([], ["[DRYRUN] " ++ ("Uploading file \"" ++ f ++ "\"" ++ r.getD "")]) := by
  simp [replace_photo, delete_photo, upload_photo, h]

theorem create_album_dry {options : Option Options} (h : dryRunOf options = true)
    (ie : Bool) (t : String) (ts : Int) (r : Option String) :
    create_album options ie t ts r =
      ([], ["[DRYRUN] " ++ ("Uploading album \"" ++ t ++ "\"" ++ r.getD "")], none) := by
  simp [create_album, h]

theorem delete_album_dry {options : Option Options} (h : dryRunOf options = true)
    (ie : Bool) (t : String) (r : Option String) :
    delete_album options ie t r =
      ([], ["[DRYRUN] " ++ ("Deleting album \"" ++ t ++ "\"" ++ r.getD "")]) := by
  simp [delete_album, h]

theorem create_dir_dry {options : Option Options} (h : dryRunOf options = true)
    (ie : Bool) (mk isdir : String → Bool) (root t : String) (ts : Int) (r : Option String) :
    create_dir options ie mk isdir root t ts r =
      ([], ["[DRYRUN] " ++ ("Creating directory \"" ++ (root ++ "/" ++ t) ++ "\"" ++ r.getD "")],
        some (root ++ "/" ++ t)) := by
  simp [create_dir, create_dir_result, h]

theorem delete_dir_dry {options : Option Options} (h : dryRunOf options = true)
    (ie : Bool) (rm : String → Bool) (root t : String) (r : Option String) :
    delete_dir options ie rm root t r =
      ([], ["[DRYRUN] " ++ ("Deleting directory \"" ++ (root ++ "/" ++ t) ++ "\"" ++ r.getD "")]) := by
  simp [delete_dir, h]

theorem delete_file_dry {options : Option Options} (h : dryRunOf options = true)
    (ie : Bool) (rm : String → Bool) (f : String) (r : Option String) :
    delete_file options ie rm f r =
      ([], ["[DRYRUN] " ++ ("Deleting file \"" ++ f ++ "\"" ++ r.getD "")]) := by
  simp [delete_file, h]

/-- In dry-run mode the executor mutates nothing and logs each action
with the `[DRYRUN]` prefix, provided a `deletePhoto` carries a reason
and downloads carry a concrete album path. -/
theorem executeAction_dry (o : Options) (ie : Bool) (isdir mk rm : String → Bool)
    (root : String) (hdry : o.dry_run = true) (a : Action)
    (hwf : match a with
      | Action.deletePhoto _ r => r.isSome = true
      | Action.downloadPhoto pth _ _ => pth.isSome = true
      | Action.updateDownload pth _ _ => pth.isSome = true
      | _ => True) :
    ∃ logs, executeAction (some o) ie isdir mk rm root a = Except.ok ([], logs) ∧
      logs ≠ [] ∧ ∀ l ∈ logs, ∃ m, l = "[DRYRUN] " ++ m := by
  have hdro : dryRunOf (some o) = true := by simp [dryRunOf, hdry]
  cases a with
  | createAlbum t ts r =>
    simp only [executeAction, create_album_dry hdro]
    exact ⟨_, rfl, by simp, dry_logs_ok _⟩
  | uploadPhoto pt f ts r =>
    simp only [executeAction, upload_photo_dry hdro]
    exact ⟨_, rfl, by simp, dry_logs_ok _⟩
  | replacePhoto pt f ts r =>
    simp only [executeAction, replace_photo_dry hdro]
    exact ⟨_, rfl, by simp, dry_logs_ok _⟩
  | updateDownload pth p r =>
    cases pth with
    | none => simp at hwf
    | some d =>
      simp only [executeAction, download_photo_dry hdro]
      exact ⟨_, rfl, by simp, dry_logs_ok _⟩
  | downloadPhoto pth p r =>
    cases pth with
    | none => simp at hwf
    | some d =>
      simp only [executeAction, download_photo_dry hdro]
      exact ⟨_, rfl, by simp, dry_logs_ok _⟩
  | deletePhoto pt r =>
    cases r with
    | none => simp at hwf
    | some s =>
      simp only [executeAction, delete_photo_dry hdro]
      exact ⟨_, rfl, by simp, dry_logs_ok _⟩
  | deleteAlbum t r =>
    simp only [executeAction, delete_album_dry hdro]
    exact ⟨_, rfl, by simp, dry_logs_ok _⟩
  | createDir t ts r =>
    simp only [executeAction, create_dir_dry hdro]
    exact ⟨_, rfl, by simp, dry_logs_ok _⟩
  | deleteDir t r =>
    simp only [executeAction, delete_dir_dry hdro]
    exact ⟨_, rfl, by simp, dry_logs_ok _⟩
  | deleteFile f r =>
    simp only [executeAction, delete_file_dry hdro]
    exact ⟨_, rfl, by simp, dry_logs_ok _⟩

/-- Claim C7: with `dry_run` set, executing any planned action issues no
remote call and touches no local file or directory — its effect list is
empty — and the action is logged with the distinct `[DRYRUN]` prefix. -/
theorem claim7_dry_run_no_mutation (o : Options) (root : String)
    (disk : List (LocalAlbumKey × List LocalPhoto)) (picasa : List RemoteAlbum)
    (mk isdir rm : String → Bool) (ie : Bool)
    (hdry : o.dry_run = true) :
    ∀ a ∈ sync o root disk picasa mk,
      ∃ logs, executeAction (some o) ie isdir mk rm root a = Except.ok ([], logs) ∧
        logs ≠ [] ∧ ∀ l ∈ logs, ∃ m, l = "[DRYRUN] " ++ m := by
  intro a ha
  apply executeAction_dry o ie isdir mk rm root hdry a
  rcases mem_sync_cases o root disk picasa mk a ha with
    ⟨t, ts, rfl⟩ | ⟨pt, f, ts, r, rfl⟩ | ⟨f, r, rfl⟩ | ⟨t, rfl⟩ | ⟨pt, rfl⟩ | ⟨t, rfl⟩ |
    ⟨t, ts, rfl⟩ | ⟨pth, p, r, rfl, himp⟩ |
    ⟨e, p, ra, rp, he, hp, hra, hrp, -, hcond, r, rfl⟩ |
    ⟨e, p, ra, rp, he, hp, hra, hrp, -, hcond, pth, r, hsome, rfl⟩
  · trivial
  · trivial
  · trivial
  · trivial
  · rfl
  · trivial
  · trivial
  · exact himp hdry
  · trivial
  · exact hsome

theorem claim7_dry_run_no_mutation_witness :
    (let o : Options := ⟨true, false, 0, 1000, true, true, true, false, false, false, ["/r"]⟩
    let disk : List (LocalAlbumKey × List LocalPhoto) :=
      [(⟨"T", "T", 5⟩, [⟨"a.jpg", "/r/T/a.jpg", 3⟩])]
    let picasa : List RemoteAlbum := [⟨"U", 8000, [⟨"b.jpg", 2000, "http:v"⟩]⟩]
    o.dry_run = true ∧
    ∀ a ∈ sync o "/r" disk picasa (fun _ => false),
      ∃ logs, executeAction (some o) false (fun _ => false) (fun _ => false) (fun _ => false)
          "/r" a = Except.ok ([], logs) ∧
        logs ≠ [] ∧ ∀ l ∈ logs, ∃ m, l = "[DRYRUN] " ++ m) :=
  ⟨by decide,
    claim7_dry_run_no_mutation ⟨true, false, 0, 1000, true, true, true, false, false, false, ["/r"]⟩
      "/r" [(⟨"T", "T", 5⟩, [⟨"a.jpg", "/r/T/a.jpg", 3⟩])]
      [⟨"U", 8000, [⟨"b.jpg", 2000, "http:v"⟩]⟩]
      (fun _ => false) (fun _ => false) (fun _ => false) false (by decide)⟩

end PicasaSync
